import Mathlib

/-!
Shallow embedding of the `eff` repository's scalar codecs and HTTP
transport chain, for checking the specification's claims.

Source files embedded:
- scalars.go (`Date.UnmarshalJSON`, `Decimal.MarshalJSON`,
  `Decimal.UnmarshalJSON`), together with the parts of Go's standard
  library they invoke (`encoding/json` unmarshalling into a `string` /
  `json.Number` target, and `time.Parse` with layout `"2006-01-02"`);
- twisp.go (`headerTransport.RoundTrip`, `retryTransport.RoundTrip`,
  `isTransient`).
-/

namespace Eff

/-! ## JSON layer

A JSON document, abstracted to the distinctions `encoding/json` makes
when unmarshalling into a `string` or `json.Number` target: a JSON
string (with its decoded content), a JSON number literal (with its
literal text), `null`, and everything else (booleans, arrays, objects).
String escaping/unescaping happens below this level of abstraction. -/

inductive JsonValue where
  | str (s : String)
  | num (lit : String)
  | null
  | other
deriving DecidableEq, Repr

/-- Models `json.Unmarshal(b, &s)` for a target `var s string`:
a JSON string stores its content; JSON `null` is a no-op, leaving the
zero value `""`; any other document is a type error. -/
def unmarshalIntoString : JsonValue → Except Unit String
  | .str s => .ok s
  | .null => .ok ""
  | _ => .error ()

/-- Errors surfaced by the scalar decoders.
`formatError text` models `fmt.Errorf("invalid Date %q: %w", s, err)`,
which embeds the offending text in the message;
`decimalFormatError` models `fmt.Errorf("invalid Decimal: %w", err)`;
`jsonError` models an `encoding/json` error returned unwrapped. -/
inductive ScalarError where
  | jsonError
  | formatError (text : String)
  | decimalFormatError
deriving DecidableEq, Repr

/-! ## Date scalar

`Date.UnmarshalJSON` decodes the JSON document into a Go string and then
calls `time.Parse("2006-01-02", s)`. We embed `time.Parse` specialised
to that fixed layout, following `time/format.go`:
- `2006` (`stdLongYear`): four digit characters, read as the year;
- literal `-`;
- `01` (`stdZeroMonth`): exactly two digit characters (`getnum` with
  `fixed = true`), followed by the range check `month <= 0 || 12 < month`;
- literal `-`;
- `02` (`stdZeroDay`): exactly two digit characters;
- end of layout: any remaining input is an "extra text" error;
- final check: `day < 1 || daysIn(month, year) < day` is "day out of
  range".
Go iterates over bytes; since every character the layout can accept is
ASCII, iterating over the string's characters is equivalent. -/

def digitVal (c : Char) : Nat := c.toNat - 48

/-- Models `getnum(s, true)` from `time/format.go`: consume exactly two
digit characters. -/
def getnum2 : List Char → Except Unit (Nat × List Char)
  | c1 :: c2 :: rest =>
    if c1.isDigit && c2.isDigit then
      .ok (digitVal c1 * 10 + digitVal c2, rest)
    else .error ()
  | _ => .error ()

/-- Models the `stdLongYear` case of `time.Parse`: the first four
characters must exist, and `atoi` of them must succeed, i.e. all four
are digits (the leading character is checked to be a digit before
`atoi`, so no sign is possible). -/
def getnum4 : List Char → Except Unit (Nat × List Char)
  | c1 :: c2 :: c3 :: c4 :: rest =>
    if c1.isDigit && c2.isDigit && c3.isDigit && c4.isDigit then
      .ok (((digitVal c1 * 10 + digitVal c2) * 10 + digitVal c3) * 10 + digitVal c4, rest)
    else .error ()
  | _ => .error ()

/-- Models consuming a literal layout character. -/
def expectChar (c : Char) : List Char → Except Unit (List Char)
  | c1 :: rest => if c1 = c then .ok rest else .error ()
  | [] => .error ()

/-- Models `isLeap` from the `time` package. -/
def isLeap (year : Nat) : Bool :=
  year % 4 == 0 && (year % 100 != 0 || year % 400 == 0)

/-- Models `daysIn` from the `time` package. -/
def daysIn (month year : Nat) : Nat :=
  if month == 2 then (if isLeap year then 29 else 28)
  else if month == 4 || month == 6 || month == 9 || month == 11 then 30
  else 31

/-- The calendar date a successful parse produces (the embedding of the
`Date` struct's observable content: `time.Date(year, month, day, 0, 0,
0, 0, time.UTC)`). -/
structure Date where
  year : Nat
  month : Nat
  day : Nat
deriving DecidableEq, Repr

/-- Models `time.Parse("2006-01-02", s)` on the character list of `s`. -/
def timeParseDate (cs : List Char) : Except Unit Date :=
  match getnum4 cs with
  | .error _ => .error ()
  | .ok (year, r1) =>
    match expectChar '-' r1 with
    | .error _ => .error ()
    | .ok r2 =>
      match getnum2 r2 with
      | .error _ => .error ()
      | .ok (month, r3) =>
        if month == 0 || 12 < month then .error ()
        else
          match expectChar '-' r3 with
          | .error _ => .error ()
          | .ok r4 =>
            match getnum2 r4 with
            | .error _ => .error ()
            | .ok (day, r5) =>
              if !r5.isEmpty then .error ()
              else if day == 0 || daysIn month year < day then .error ()
              else .ok ⟨year, month, day⟩

/-- Models `Date.UnmarshalJSON`: unmarshal the document into a string
(returning the json error unwrapped on failure), then `time.Parse` the
string, wrapping a parse failure as `invalid Date %q`. -/
def Date.unmarshalJSON (b : JsonValue) : Except ScalarError Date :=
  match unmarshalIntoString b with
  | .error _ => .error .jsonError
  | .ok s =>
    match timeParseDate s.toList with
    | .error _ => .error (.formatError s)
    | .ok t => .ok t

/-! ## Decimal scalar

`Decimal` is a string type; `MarshalJSON` is `json.Marshal(string(d))`
and `UnmarshalJSON` first tries to unmarshal into a string, falling
back to `json.Number` on failure. -/

/-- Models `Decimal.MarshalJSON`: marshal the underlying string as a
JSON string. -/
def Decimal.marshalJSON (d : String) : JsonValue := .str d

/-- Models `Decimal.UnmarshalJSON`. The fallback branch models
`json.Unmarshal(b, &n)` for `n : json.Number` followed by `n.String()`:
a JSON number literal stores its literal text verbatim. (The fallback
is reached only when unmarshalling into a string failed, so the input
there is never a JSON string or `null`; for booleans, arrays and
objects the `json.Number` unmarshal fails too.) -/
def Decimal.unmarshalJSON (b : JsonValue) : Except ScalarError String :=
  match unmarshalIntoString b with
  | .ok s => .ok s
  | .error _ =>
    match b with
    | .num lit => .ok lit
    | _ => .error .decimalFormatError

/-! ## Specification-side date grammar

These two definitions follow the words of the specification and of the
claim about `Date` decoding, for comparison with the embedded code:
`shapeYMD` is the claim's "strings in the form YYYY-MM-DD (four-digit
zero-padded year, two-digit zero-padded month and day)", and
`specParseYMD` additionally requires the digits to denote a valid
calendar date (month 1–12, day within the month's length under the
Gregorian leap rule). -/

def shapeYMDList : List Char → Bool
  | [y1, y2, y3, y4, h1, m1, m2, h2, d1, d2] =>
    y1.isDigit && y2.isDigit && y3.isDigit && y4.isDigit && h1 == '-' &&
    m1.isDigit && m2.isDigit && h2 == '-' && d1.isDigit && d2.isDigit
  | _ => false

def shapeYMD (s : String) : Bool := shapeYMDList s.toList

def specParseYMDList : List Char → Option Date
  | [y1, y2, y3, y4, h1, m1, m2, h2, d1, d2] =>
    if y1.isDigit && y2.isDigit && y3.isDigit && y4.isDigit && h1 == '-' &&
       m1.isDigit && m2.isDigit && h2 == '-' && d1.isDigit && d2.isDigit then
      let year := ((digitVal y1 * 10 + digitVal y2) * 10 + digitVal y3) * 10 + digitVal y4
      let month := digitVal m1 * 10 + digitVal m2
      let day := digitVal d1 * 10 + digitVal d2
      if 1 ≤ month && month ≤ 12 && 1 ≤ day && day ≤ daysIn month year then
        some ⟨year, month, day⟩
      else none
    else none
  | _ => none

def specParseYMD (s : String) : Option Date := specParseYMDList s.toList

/-! ## Error model for the transport chain

A Go `error` value is abstracted to the observations `isTransient`
makes of it: whether `errors.Is(err, syscall.ECONNREFUSED)` holds,
whether `errors.Is(err, syscall.ECONNRESET)` holds, and — when
`errors.As(err, &netErr)` finds a `*net.OpError` in the chain — that
`net.OpError`'s `Op` field. -/

structure GoError where
  connRefused : Bool
  connReset : Bool
  opErrorOp : Option String
deriving DecidableEq, Repr

/-- Models `isTransient` from twisp.go. -/
def isTransient (err : GoError) : Bool :=
  if err.connRefused || err.connReset then true
  else
    match err.opErrorOp with
    | some op => op == "dial"
    | none => false

/-- An HTTP response, opaque to the transport chain. -/
structure Response where
  id : Nat
deriving DecidableEq, Repr

/-! ## Header-injecting transport

`http.Header` is a map from header name to the list of values; we model
it as a function from names to value lists. Go canonicalises header
names (MIME canonical form) identically in `Header.Add` and in lookups,
so working with names as given loses nothing the claims depend on.
The map held by `headerTransport.headers` is modelled as an association
list giving one iteration order of the map's (distinct) keys. -/

/-- Models `req.Header.Add(key, v)`: append `v` to the values of `key`,
leaving every other key unchanged. -/
def headerAdd (h : String → List String) (key v : String) : String → List String :=
  fun k => if k = key then h k ++ [v] else h k

/-- Models the loop of `headerTransport.RoundTrip`:
`for key, vals := range t.headers { for _, v := range vals { req.Header.Add(key, v) } }`. -/
def addHeaders (h : String → List String) (entries : List (String × List String)) :
    String → List String :=
  entries.foldl (fun acc kv => kv.2.foldl (fun acc2 v => headerAdd acc2 kv.1 v) acc) h

structure headerTransport where
  headers : List (String × List String)

/-- Models `headerTransport.RoundTrip`: add all configured headers to
the request, then delegate to the wrapped transport (`t.base`,
modelled as a function from the request's headers to its result) and
return its result unchanged. -/
def headerTransport.roundTrip (t : headerTransport)
    (base : (String → List String) → Except GoError Response)
    (reqHeaders : String → List String) : Except GoError Response :=
  base (addHeaders reqHeaders t.headers)

/-! ## Retrying transport

`retryTransport.RoundTrip` is embedded as a recursion over the
remaining loop iterations of `for attempt := range t.maxRetries`
(a Go range-over-int runs for `attempt = 0 .. maxRetries-1`, and not at
all when `maxRetries <= 0`, which `Int.toNat` captures). The embedding
returns, besides the `(*http.Response, error)` pair, a trace: the body
attached to each request actually sent through the wrapped transport,
and each backoff wait that completed. `time.Duration` arithmetic on
`baseDelay * (1 << attempt)` is modelled on `Nat` (int64 overflow is
not modelled; no claim depends on it). -/

structure retryTransport where
  maxRetries : Int
  baseDelay : Nat

/-- The aspects of `*http.Request` the retry loop observes:
`hasBody` models `req.Body != nil && req.GetBody != nil`; `getBody i`
models the outcome of the `req.GetBody()` call made on attempt `i`,
returning a fresh body stream (identified by a `Nat`) or an error;
`ctxDoneDuringWait i` models whether `req.Context().Done()` fires
during the backoff wait after attempt `i` (before `time.After(delay)`
does); `ctxErr` models `req.Context().Err()`. -/
structure RetryRequest where
  hasBody : Bool
  getBody : Nat → Except GoError Nat
  ctxDoneDuringWait : Nat → Bool
  ctxErr : GoError

/-- The wrapped transport: `send attempt body` is the outcome of
`t.base.RoundTrip(cloned)` for the clone built on the given attempt,
carrying the given body (`none` when no body was attached). -/
structure BaseTransport where
  send : Nat → Option Nat → Except GoError Response

/-- The result of `RoundTrip` plus its observable trace. -/
structure RoundTripResult where
  resp : Option Response
  err : Option GoError
  sentBodies : List (Option Nat)
  waits : List Nat
deriving DecidableEq, Repr

/-- The body of the `for attempt := range t.maxRetries` loop of
`retryTransport.RoundTrip`, one constructor step per iteration:
clone the request, re-acquire the body when present (returning
`GetBody`'s error immediately on failure), send through the wrapped
transport, return the response on success, return a non-transient
error immediately, and otherwise record the error and wait
`t.baseDelay * (1 << attempt)` — aborting with `req.Context().Err()`
if the context fires during the wait. -/
def retryTransport.roundTripAux (t : retryTransport) (base : BaseTransport)
    (req : RetryRequest) (attempt : Nat) (remaining : Nat) (lastErr : Option GoError)
    (sent : List (Option Nat)) (waits : List Nat) : RoundTripResult :=
  match remaining with
  | 0 => ⟨none, lastErr, sent, waits⟩
  | remaining' + 1 =>
    match (if req.hasBody then (req.getBody attempt).map some
           else .ok none : Except GoError (Option Nat)) with
    | .error e => ⟨none, some e, sent, waits⟩
    | .ok b =>
      match base.send attempt b with
      | .ok resp => ⟨some resp, none, sent ++ [b], waits⟩
      | .error e =>
        if isTransient e then
          if req.ctxDoneDuringWait attempt then
            ⟨none, some req.ctxErr, sent ++ [b], waits⟩
          else
            retryTransport.roundTripAux t base req (attempt + 1) remaining' (some e)
              (sent ++ [b]) (waits ++ [t.baseDelay * 2 ^ attempt])
        else ⟨none, some e, sent ++ [b], waits⟩

/-- Models `retryTransport.RoundTrip`. -/
def retryTransport.roundTrip (t : retryTransport) (base : BaseTransport)
    (req : RetryRequest) : RoundTripResult :=
  retryTransport.roundTripAux t base req 0 t.maxRetries.toNat none [] []

/-! ## Theorems: scalar codecs -/

set_option maxHeartbeats 1000000 in
/-- Helper: the embedded `time.Parse("2006-01-02", ·)` succeeds exactly
on character lists of the shape YYYY-MM-DD whose digits denote a valid
calendar date, and produces that date. -/
theorem timeParseDate_eq_spec (cs : List Char) :
    timeParseDate cs = (match specParseYMDList cs with
      | some d => Except.ok d
      | none => Except.error ()) := by
  rcases cs with _ | ⟨c0, _ | ⟨c1, _ | ⟨c2, _ | ⟨c3, _ | ⟨c4, _ | ⟨c5, _ | ⟨c6, _ | ⟨c7, _ | ⟨c8, _ | ⟨c9, rest⟩⟩⟩⟩⟩⟩⟩⟩⟩⟩
  all_goals try (cases rest)
  all_goals
    simp only [timeParseDate, getnum4, getnum2, expectChar, specParseYMDList,
      List.isEmpty, Bool.and_eq_true, beq_iff_eq, decide_eq_true_eq, Bool.not_true,
      Bool.not_false]
  all_goals (repeat' (first | split_ifs | dsimp only))
  all_goals
    (first
      | rfl
      | (exfalso; omega)
      | tauto
      | (exfalso
         simp only [Bool.or_eq_true, beq_iff_eq, decide_eq_true_eq, Bool.not_true,
           Bool.not_false] at *
         omega))

/-- C7, counterexample: the string "2021-13-01" is in the form
YYYY-MM-DD (four-digit zero-padded year, two-digit zero-padded month
and day), yet `Date.UnmarshalJSON` rejects it — `time.Parse` also
range-checks the month — so decode does not succeed on every string of
that form. -/
theorem date_shape_claim_counterexample :
    shapeYMD "2021-13-01" = true ∧
    Date.unmarshalJSON (.str "2021-13-01") = .error (.formatError "2021-13-01") := by
  exact ⟨by decide, by rfl⟩

/-- C7 (amended): `Date` decode succeeds exactly on strings in the form
YYYY-MM-DD (four-digit zero-padded year, two-digit zero-padded month
and day) whose components denote a valid calendar date (month 1–12,
day within the month's length under the Gregorian leap rule); on every
other string it fails with a FormatError naming the offending text. -/
theorem date_decode_exactly_valid_calendar (s : String) :
    Date.unmarshalJSON (.str s) =
      (match specParseYMD s with
       | some d => Except.ok d
       | none => Except.error (.formatError s)) := by
  have h := timeParseDate_eq_spec s.toList
  simp only [Date.unmarshalJSON, unmarshalIntoString, specParseYMD]
  rw [h]
  cases specParseYMDList s.toList <;> rfl

/-- C8: `Decimal` decode of a JSON string stores its content verbatim,
encode reproduces exactly the JSON string it was decoded from (so
encode after decode is the identity on JSON strings), and decode of
the bare JSON number literal with the same text yields the same value
as decoding the JSON string form. Proved for every string, which in
particular covers every syntactically valid decimal string. -/
theorem decimal_encode_decode_roundtrip (s : String) :
    Decimal.unmarshalJSON (.str s) = .ok s ∧
    (Decimal.unmarshalJSON (.str s)).map Decimal.marshalJSON = .ok (.str s) ∧
    Decimal.unmarshalJSON (.num s) = Decimal.unmarshalJSON (.str s) :=
  ⟨rfl, rfl, rfl⟩

/-- C10: `Decimal` decode performs no validation of a decimal grammar:
every JSON string (non-numeric text and the empty string included)
succeeds and stores the string content verbatim, every JSON number
literal succeeds with its literal text, JSON null is a no-op leaving
the zero value, and the FormatError arises exactly for the remaining
documents (booleans, arrays, objects) — those that are neither a JSON
string nor a JSON number. -/
theorem decimal_decode_no_validation (j : JsonValue) :
    Decimal.unmarshalJSON j =
      (match j with
       | .str s => .ok s
       | .num lit => .ok lit
       | .null => .ok ""
       | .other => .error .decimalFormatError) := by
  cases j <;> rfl

/-! ## Theorems: retrying transport -/

/-- C9: when the retrying transport is constructed with maximum retry
count at most 0, the range-over-int loop runs no iterations and
RoundTrip returns a nil response together with a nil error (and an
empty trace) for every request. -/
theorem retry_nonpositive_budget (t : retryTransport) (base : BaseTransport)
    (req : RetryRequest) (hN : t.maxRetries ≤ 0) :
    t.roundTrip base req = ⟨none, none, [], []⟩ := by
  have h0 : t.maxRetries.toNat = 0 := by omega
  unfold retryTransport.roundTrip
  rw [h0]
  rfl

/-- Witness for `retry_nonpositive_budget` at maximum retry count -2. -/
theorem retry_nonpositive_budget_witness :
    retryTransport.roundTrip ⟨-2, 5⟩ ⟨fun _ _ => .ok ⟨0⟩⟩
      ⟨false, fun _ => .ok 0, fun _ => false, ⟨false, false, none⟩⟩ = ⟨none, none, [], []⟩ :=
  retry_nonpositive_budget ⟨-2, 5⟩ ⟨fun _ _ => .ok ⟨0⟩⟩
    ⟨false, fun _ => .ok 0, fun _ => false, ⟨false, false, none⟩⟩ (by decide)

/-- C3: the transient classification holds exactly for
connection-refused errors, connection-reset errors, and errors whose
`net.OpError` operation is the dial phase; and on a non-transient error
from the wrapped transport, RoundTrip returns that error immediately
after exactly 1 send attempt, with no backoff wait and no further
attempts. -/
theorem transient_classification_and_nontransient_immediate
    (t : retryTransport) (base : BaseTransport) (req : RetryRequest) (e : GoError)
    (hN : 1 ≤ t.maxRetries)
    (hgb : ∀ i, ∃ bd, req.getBody i = .ok bd)
    (hsend : ∀ b, base.send 0 b = .error e)
    (hnt : isTransient e = false) :
    (∀ err : GoError, isTransient err = true ↔
       (err.connRefused = true ∨ err.connReset = true ∨ err.opErrorOp = some "dial")) ∧
    (t.roundTrip base req).resp = none ∧
    (t.roundTrip base req).err = some e ∧
    (t.roundTrip base req).sentBodies.length = 1 ∧
    (t.roundTrip base req).waits = [] := by
  constructor
  · rintro ⟨cr, crs, op⟩
    rcases cr <;> rcases crs <;> rcases op with _ | op' <;>
      simp [isTransient, beq_iff_eq]
  · obtain ⟨m, hm⟩ : ∃ m, t.maxRetries.toNat = m + 1 := ⟨t.maxRetries.toNat - 1, by omega⟩
    obtain ⟨bd0, hbd0⟩ := hgb 0
    unfold retryTransport.roundTrip
    rw [hm]
    rcases hb : req.hasBody <;>
      simp [retryTransport.roundTripAux, hb, hbd0, hsend, hnt, Except.map]

/-- Witness for `transient_classification_and_nontransient_immediate`
with a non-dial `net.OpError` (a read error), which is not transient. -/
theorem transient_classification_witness :
    (retryTransport.roundTrip ⟨1, 5⟩ ⟨fun _ _ => .error ⟨false, false, some "read"⟩⟩
      ⟨false, fun _ => .ok 0, fun _ => false, ⟨false, false, none⟩⟩).err =
        some ⟨false, false, some "read"⟩ :=
  (transient_classification_and_nontransient_immediate ⟨1, 5⟩
    ⟨fun _ _ => .error ⟨false, false, some "read"⟩⟩
    ⟨false, fun _ => .ok 0, fun _ => false, ⟨false, false, none⟩⟩
    ⟨false, false, some "read"⟩ (by decide)
    (fun _ => ⟨0, rfl⟩) (fun _ => rfl) rfl).2.2.1

/-- C4: when the cancellation context fires during the backoff wait
after a transient failure, RoundTrip aborts the wait and returns the
context's cancellation error, with exactly 1 send attempt having
occurred and no completed wait. -/
theorem retry_cancelled_during_backoff
    (t : retryTransport) (base : BaseTransport) (req : RetryRequest) (e : GoError)
    (hN : 1 ≤ t.maxRetries)
    (hgb : ∀ i, ∃ bd, req.getBody i = .ok bd)
    (hsend : ∀ b, base.send 0 b = .error e)
    (ht : isTransient e = true)
    (hc : req.ctxDoneDuringWait 0 = true) :
    (t.roundTrip base req).resp = none ∧
    (t.roundTrip base req).err = some req.ctxErr ∧
    (t.roundTrip base req).sentBodies.length = 1 ∧
    (t.roundTrip base req).waits = [] := by
  obtain ⟨m, hm⟩ : ∃ m, t.maxRetries.toNat = m + 1 := ⟨t.maxRetries.toNat - 1, by omega⟩
  obtain ⟨bd0, hbd0⟩ := hgb 0
  unfold retryTransport.roundTrip
  rw [hm]
  rcases hb : req.hasBody <;>
    simp [retryTransport.roundTripAux, hb, hbd0, hsend, ht, hc, Except.map]

/-- Witness for `retry_cancelled_during_backoff`: a connection-refused
failure followed by a context cancellation during the first wait. -/
theorem retry_cancelled_during_backoff_witness :
    (retryTransport.roundTrip ⟨5, 9⟩ ⟨fun _ _ => .error ⟨true, false, none⟩⟩
      ⟨false, fun _ => .ok 0, fun _ => true, ⟨false, false, some "ctx"⟩⟩).err =
        some ⟨false, false, some "ctx"⟩ :=
  (retry_cancelled_during_backoff ⟨5, 9⟩ ⟨fun _ _ => .error ⟨true, false, none⟩⟩
    ⟨false, fun _ => .ok 0, fun _ => true, ⟨false, false, some "ctx"⟩⟩
    ⟨true, false, none⟩ (by decide) (fun _ => ⟨0, rfl⟩)
    (fun _ => rfl) rfl rfl).2.1

/-- C2, counterexample: with maximum retry count 1 and base delay 7,
a single transient failure (and no cancellation) produces a completed
backoff wait of 7 after the final attempt (attempt N-1 = 0), so the
backoff wait does not occur only when more attempts remain. -/
theorem retry_wait_after_final_attempt_counterexample :
    retryTransport.roundTrip ⟨1, 7⟩ ⟨fun _ _ => .error ⟨true, false, none⟩⟩
      ⟨false, fun _ => .ok 0, fun _ => false, ⟨false, false, none⟩⟩ =
    ⟨none, some ⟨true, false, none⟩, [none], [7]⟩ := rfl

/-- C1: with maximum retry count at least 3, a wrapped transport that
fails transiently on the first 2 calls and succeeds on the 3rd, and a
context that never fires, RoundTrip returns the 3rd call's response
with no error, exactly 3 send attempts occur, and the completed
backoff waits are d and 2d, totalling d + 2d. -/
theorem retry_two_transient_then_success
    (t : retryTransport) (base : BaseTransport) (req : RetryRequest)
    (e0 e1 : GoError) (resp : Response)
    (hN : 3 ≤ t.maxRetries)
    (hgb : ∀ i, ∃ bd, req.getBody i = .ok bd)
    (h0 : ∀ b, base.send 0 b = .error e0) (ht0 : isTransient e0 = true)
    (h1 : ∀ b, base.send 1 b = .error e1) (ht1 : isTransient e1 = true)
    (h2 : ∀ b, base.send 2 b = .ok resp)
    (hc0 : req.ctxDoneDuringWait 0 = false) (hc1 : req.ctxDoneDuringWait 1 = false) :
    (t.roundTrip base req).resp = some resp ∧
    (t.roundTrip base req).err = none ∧
    (t.roundTrip base req).sentBodies.length = 3 ∧
    (t.roundTrip base req).waits = [t.baseDelay, t.baseDelay * 2] ∧
    (t.roundTrip base req).waits.sum = t.baseDelay + t.baseDelay * 2 := by
  obtain ⟨m, hm⟩ : ∃ m, t.maxRetries.toNat = m + 3 := ⟨t.maxRetries.toNat - 3, by omega⟩
  obtain ⟨bd0, hbd0⟩ := hgb 0
  obtain ⟨bd1, hbd1⟩ := hgb 1
  obtain ⟨bd2, hbd2⟩ := hgb 2
  unfold retryTransport.roundTrip
  rw [hm]
  rcases hb : req.hasBody <;>
    simp [retryTransport.roundTripAux, hb, hbd0, hbd1, hbd2, h0, h1, h2, ht0, ht1,
      hc0, hc1, Except.map, pow_succ]

/-- Witness for `retry_two_transient_then_success` with the
repository's own configuration (5 retries, base delay 200): total wait
200 + 400 = 600. -/
theorem retry_two_transient_then_success_witness :
    (retryTransport.roundTrip ⟨5, 200⟩
      ⟨fun a _ => if a < 2 then .error ⟨true, false, none⟩ else .ok ⟨42⟩⟩
      ⟨false, fun _ => .ok 0, fun _ => false, ⟨false, false, none⟩⟩).waits.sum = 600 :=
  (retry_two_transient_then_success ⟨5, 200⟩
    ⟨fun a _ => if a < 2 then .error ⟨true, false, none⟩ else .ok ⟨42⟩⟩
    ⟨false, fun _ => .ok 0, fun _ => false, ⟨false, false, none⟩⟩
    ⟨true, false, none⟩ ⟨true, false, none⟩ ⟨42⟩ (by decide)
    (fun _ => ⟨0, rfl⟩) (fun _ => rfl) rfl (fun _ => rfl) rfl (fun _ => rfl)
    rfl rfl).2.2.2.2

/-- Helper: when every attempt fails transiently, the body is always
re-acquirable and the context never fires, the retry loop's remaining
iterations return no response, the last error (or the accumulated one
when no iterations remain), one send per iteration, and one completed
backoff wait of d * 2 ^ attempt per iteration — the final iteration
included. -/
theorem roundTripAux_all_transient
    (t : retryTransport) (base : BaseTransport) (req : RetryRequest) (e : Nat → GoError)
    (hfail : ∀ i b, base.send i b = .error (e i))
    (ht : ∀ i, isTransient (e i) = true)
    (hgb : ∀ i, ∃ bd, req.getBody i = .ok bd)
    (hc : ∀ i, req.ctxDoneDuringWait i = false) :
    ∀ (r attempt : Nat) (lastErr : Option GoError) (sent : List (Option Nat)) (waits : List Nat),
      (retryTransport.roundTripAux t base req attempt r lastErr sent waits).resp = none ∧
      (retryTransport.roundTripAux t base req attempt r lastErr sent waits).err =
        (if r = 0 then lastErr else some (e (attempt + r - 1))) ∧
      (retryTransport.roundTripAux t base req attempt r lastErr sent waits).sentBodies.length =
        sent.length + r ∧
      (retryTransport.roundTripAux t base req attempt r lastErr sent waits).waits =
        waits ++ ((List.range r).map fun i => t.baseDelay * 2 ^ (attempt + i)) := by
  intro r
  induction r with
  | zero =>
    intro attempt lastErr sent waits
    simp [retryTransport.roundTripAux]
  | succ r ih =>
    intro attempt lastErr sent waits
    obtain ⟨bd, hbd⟩ := hgb attempt
    have step : retryTransport.roundTripAux t base req attempt (r + 1) lastErr sent waits =
        retryTransport.roundTripAux t base req (attempt + 1) r (some (e attempt))
          (sent ++ [if req.hasBody then some bd else none])
          (waits ++ [t.baseDelay * 2 ^ attempt]) := by
      rcases hb : req.hasBody <;>
        simp [retryTransport.roundTripAux, hb, hbd, hfail, ht, hc, Except.map]
    rw [step]
    obtain ⟨ih1, ih2, ih3, ih4⟩ := ih (attempt + 1) (some (e attempt))
      (sent ++ [if req.hasBody then some bd else none]) (waits ++ [t.baseDelay * 2 ^ attempt])
    refine ⟨ih1, ?_, ?_, ?_⟩
    · rw [ih2]
      rcases r with _ | r'
      · simp
      · have harith : attempt + 1 + (r' + 1) - 1 = attempt + (r' + 1 + 1) - 1 := by omega
        simp only [harith]
        simp
    · rw [ih3]
      simp
      omega
    · rw [ih4, List.append_assoc]
      congr 1
      rw [List.range_succ_eq_map, List.map_cons, List.map_map, List.singleton_append,
        Nat.add_zero]
      congr 1
      apply List.map_congr_left
      intro i _
      simp only [Function.comp_apply]
      have hi : attempt + 1 + i = attempt + i.succ := by omega
      rw [hi]

/-- C2 (amended): a backoff wait of d * 2 ^ attempt occurs after every
transiently-failed attempt, the final attempt N-1 included (so N
completed waits when all N attempts fail transiently and the context
never fires), and in that case RoundTrip returns the transient error
observed on the last attempt. -/
theorem retry_exhaustion_and_wait_after_every_attempt
    (t : retryTransport) (base : BaseTransport) (req : RetryRequest) (e : Nat → GoError)
    (hN : 1 ≤ t.maxRetries)
    (hfail : ∀ i b, base.send i b = .error (e i))
    (ht : ∀ i, isTransient (e i) = true)
    (hgb : ∀ i, ∃ bd, req.getBody i = .ok bd)
    (hc : ∀ i, req.ctxDoneDuringWait i = false) :
    (t.roundTrip base req).resp = none ∧
    (t.roundTrip base req).err = some (e (t.maxRetries.toNat - 1)) ∧
    (t.roundTrip base req).sentBodies.length = t.maxRetries.toNat ∧
    (t.roundTrip base req).waits =
      (List.range t.maxRetries.toNat).map fun i => t.baseDelay * 2 ^ i := by
  unfold retryTransport.roundTrip
  obtain ⟨h1, h2, h3, h4⟩ := roundTripAux_all_transient t base req e hfail ht hgb hc
    t.maxRetries.toNat 0 none [] []
  have hne : t.maxRetries.toNat ≠ 0 := by omega
  refine ⟨h1, ?_, by simpa using h3, ?_⟩
  · rw [h2, if_neg hne]
    simp
  · rw [h4]
    simp

/-- Witness for `retry_exhaustion_and_wait_after_every_attempt` with 2
attempts and base delay 3: both attempts fail with connection-reset
and both waits complete, giving waits 3 and 6. -/
theorem retry_exhaustion_witness :
    (retryTransport.roundTrip ⟨2, 3⟩ ⟨fun _ _ => .error ⟨false, true, none⟩⟩
      ⟨false, fun _ => .ok 0, fun _ => false, ⟨false, false, none⟩⟩).waits = [3, 6] := by
  have h := (retry_exhaustion_and_wait_after_every_attempt ⟨2, 3⟩
    ⟨fun _ _ => .error ⟨false, true, none⟩⟩
    ⟨false, fun _ => .ok 0, fun _ => false, ⟨false, false, none⟩⟩
    (fun _ => ⟨false, true, none⟩) (by decide) (fun _ _ => rfl) (fun _ => rfl)
    (fun _ => ⟨0, rfl⟩) (fun _ => rfl)).2.2.2
  simpa [List.range_succ] using h

/-- Helper: when the request has a body whose re-acquisition always
succeeds, every request actually sent by the remaining loop iterations
carries the fresh copy acquired for its own attempt. -/
theorem roundTripAux_fresh_bodies
    (t : retryTransport) (base : BaseTransport) (req : RetryRequest) (bodyOf : Nat → Nat)
    (hb : req.hasBody = true)
    (hgb : ∀ i, req.getBody i = .ok (bodyOf i)) :
    ∀ (r : Nat) (lastErr : Option GoError) (sent : List (Option Nat)) (waits : List Nat),
      sent = (List.range sent.length).map (fun i => some (bodyOf i)) →
      (retryTransport.roundTripAux t base req sent.length r lastErr sent waits).sentBodies =
        (List.range
          (retryTransport.roundTripAux t base req sent.length r lastErr sent
            waits).sentBodies.length).map (fun i => some (bodyOf i)) := by
  intro r
  induction r with
  | zero =>
    intro lastErr sent waits hinv
    simpa [retryTransport.roundTripAux] using hinv
  | succ r ih =>
    intro lastErr sent waits hinv
    have hsucc : sent ++ [some (bodyOf sent.length)] =
        (List.range (sent ++ [some (bodyOf sent.length)]).length).map
          (fun i => some (bodyOf i)) := by
      rw [List.length_append]
      simp only [List.length_singleton]
      rw [List.range_succ, List.map_append]
      rw [← hinv]
      simp
    cases hsend : base.send sent.length (some (bodyOf sent.length)) with
    | ok resp =>
      simp only [retryTransport.roundTripAux, hb, if_true, hgb, Except.map, hsend]
      exact hsucc
    | error e =>
      rcases htr : isTransient e
      · simp only [retryTransport.roundTripAux, hb, if_true, hgb, Except.map, hsend, htr,
          Bool.false_eq_true, if_false]
        exact hsucc
      · rcases hcd : req.ctxDoneDuringWait sent.length
        · have hrec := ih (some e) (sent ++ [some (bodyOf sent.length)])
            (waits ++ [t.baseDelay * 2 ^ sent.length]) hsucc
          simp only [retryTransport.roundTripAux, hb, if_true, hgb, Except.map, hsend, htr,
            hcd, Bool.false_eq_true, if_false]
          simpa using hrec
        · simp only [retryTransport.roundTripAux, hb, if_true, hgb, Except.map, hsend, htr,
            hcd]
          exact hsucc

/-- C5: for every send attempt on a request carrying a body, the body
sent on attempt i is the fresh copy `GetBody` produced for attempt i
(so no two attempts share a consumed stream); and whenever `GetBody`
fails at the current attempt, the loop returns that error immediately
without sending. -/
theorem retry_body_fresh_per_attempt :
    (∀ (t : retryTransport) (base : BaseTransport) (req : RetryRequest) (bodyOf : Nat → Nat),
       req.hasBody = true → (∀ i, req.getBody i = .ok (bodyOf i)) →
       (t.roundTrip base req).sentBodies =
         (List.range (t.roundTrip base req).sentBodies.length).map fun i => some (bodyOf i)) ∧
    (∀ (t : retryTransport) (base : BaseTransport) (req : RetryRequest) (e : GoError)
       (attempt remaining : Nat) (lastErr : Option GoError) (sent : List (Option Nat))
       (waits : List Nat),
       req.hasBody = true → req.getBody attempt = .error e →
       retryTransport.roundTripAux t base req attempt (remaining + 1) lastErr sent waits =
         ⟨none, some e, sent, waits⟩) := by
  constructor
  · intro t base req bodyOf hb hgb
    have h := roundTripAux_fresh_bodies t base req bodyOf hb hgb t.maxRetries.toNat
      none [] [] (by simp)
    simpa [retryTransport.roundTrip] using h
  · intro t base req e attempt remaining lastErr sent waits hb hgb
    simp [retryTransport.roundTripAux, hb, hgb, Except.map]

/-- Witness for `retry_body_fresh_per_attempt`: two transient failures
then success, with the fresh body for attempt i being stream 10 + i. -/
theorem retry_body_fresh_witness :
    (retryTransport.roundTrip ⟨3, 1⟩
      ⟨fun a _ => if a < 2 then .error ⟨true, false, none⟩ else .ok ⟨7⟩⟩
      ⟨true, fun i => .ok (10 + i), fun _ => false, ⟨false, false, none⟩⟩).sentBodies =
      (List.range (retryTransport.roundTrip ⟨3, 1⟩
        ⟨fun a _ => if a < 2 then .error ⟨true, false, none⟩ else .ok ⟨7⟩⟩
        ⟨true, fun i => .ok (10 + i), fun _ => false,
          ⟨false, false, none⟩⟩).sentBodies.length).map (fun i => some (10 + i)) :=
  retry_body_fresh_per_attempt.1 ⟨3, 1⟩
    ⟨fun a _ => if a < 2 then .error ⟨true, false, none⟩ else .ok ⟨7⟩⟩
    ⟨true, fun i => .ok (10 + i), fun _ => false, ⟨false, false, none⟩⟩
    (fun i => 10 + i) rfl (fun _ => rfl)

/-! ## Theorems: header-injecting transport -/

/-- Helper: folding `Header.Add` over a value list appends the values
in order at the added key. -/
theorem foldl_headerAdd_self (key : String) :
    ∀ (vs : List String) (h : String → List String),
      (vs.foldl (fun acc v => headerAdd acc key v) h) key = h key ++ vs := by
  intro vs
  induction vs with
  | nil => intro h; simp
  | cons v vs ih =>
    intro h
    simp only [List.foldl_cons]
    rw [ih]
    simp [headerAdd]

/-- Helper: folding `Header.Add` over a value list leaves other keys
unchanged. -/
theorem foldl_headerAdd_other (key k : String) (hne : k ≠ key) :
    ∀ (vs : List String) (h : String → List String),
      (vs.foldl (fun acc v => headerAdd acc key v) h) k = h k := by
  intro vs
  induction vs with
  | nil => intro h; rfl
  | cons v vs ih =>
    intro h
    simp only [List.foldl_cons]
    rw [ih]
    simp [headerAdd, hne]

/-- Helper: adding configured headers leaves keys not configured
unchanged. -/
theorem addHeaders_of_not_mem :
    ∀ (entries : List (String × List String)) (h : String → List String) (k : String),
      k ∉ entries.map Prod.fst → addHeaders h entries k = h k := by
  intro entries
  induction entries with
  | nil => intro h k _; rfl
  | cons kv rest ih =>
    intro h k hk
    simp only [List.map_cons, List.mem_cons, not_or] at hk
    have hstep : addHeaders h (kv :: rest) =
        addHeaders (kv.2.foldl (fun a v => headerAdd a kv.1 v) h) rest := rfl
    rw [hstep, ih _ k hk.2, foldl_headerAdd_other kv.1 k hk.1 kv.2 h]

/-- Helper: with distinct configured keys, adding configured headers
appends exactly the configured values, in order, after any values
already present for that key. -/
theorem addHeaders_of_mem :
    ∀ (entries : List (String × List String)) (h : String → List String) (k : String)
      (vs : List String),
      (entries.map Prod.fst).Nodup → (k, vs) ∈ entries →
      addHeaders h entries k = h k ++ vs := by
  intro entries
  induction entries with
  | nil =>
    intro h k vs _ hmem
    simp at hmem
  | cons kv rest ih =>
    intro h k vs hnd hmem
    simp only [List.map_cons, List.nodup_cons] at hnd
    have hstep : addHeaders h (kv :: rest) =
        addHeaders (kv.2.foldl (fun a v => headerAdd a kv.1 v) h) rest := rfl
    rcases List.mem_cons.mp hmem with heq | hmem'
    · have hk : k ∉ rest.map Prod.fst := by
        rw [← heq] at hnd
        exact hnd.1
      rw [hstep, addHeaders_of_not_mem rest _ k hk, ← heq]
      exact foldl_headerAdd_self k vs h
    · have hk1 : k ≠ kv.1 := by
        intro hkk
        apply hnd.1
        rw [← hkk]
        exact List.mem_map.mpr ⟨(k, vs), hmem', rfl⟩
      rw [hstep, ih _ k vs hnd.2 hmem', foldl_headerAdd_other kv.1 k hk1 kv.2 h]

/-- C6: the header-injecting transport adds every configured header
name/value pair additively — for a configured key the resulting values
are the values already present followed by all configured values in
their configured order, keys not configured are untouched — and the
wrapped transport's result is returned unchanged. -/
theorem headerTransport_additive (t : headerTransport)
    (base : (String → List String) → Except GoError Response)
    (h : String → List String)
    (hnd : (t.headers.map Prod.fst).Nodup) :
    (∀ k vs, (k, vs) ∈ t.headers → addHeaders h t.headers k = h k ++ vs) ∧
    (∀ k, k ∉ t.headers.map Prod.fst → addHeaders h t.headers k = h k) ∧
    headerTransport.roundTrip t base h = base (addHeaders h t.headers) := by
  exact ⟨fun k vs hmem => addHeaders_of_mem t.headers h k vs hnd hmem,
    fun k hk => addHeaders_of_not_mem t.headers h k hk, rfl⟩

/-- Witness for `headerTransport_additive`: configured headers
x-a: ["1", "2"] on a request with no existing x-a header yield both
values in order. -/
theorem headerTransport_additive_witness :
    addHeaders (fun _ => []) [("x-a", ["1", "2"])] "x-a" = ["1", "2"] := by
  have h := (headerTransport_additive ⟨[("x-a", ["1", "2"])]⟩ (fun _ => .ok ⟨0⟩)
    (fun _ => []) (by simp)).1 "x-a" ["1", "2"] (by simp)
  simpa using h

end Eff
